import Mathlib

/-!
Verification of the streaming chat front-end (`chat_service.py`,
`model_serving_utils.py`).

Shallow embedding conventions, applied uniformly:
- Python dict payloads are modeled as Lean structures.  A field that is
  absent or `None` in Python is modeled as `""` (for strings) or `[]`
  (for lists): every branch of the source that inspects such a field
  does so through Python truthiness (`if x:`), which identifies absent,
  `None`, `""` and `[]`, so the collapse is behavior-preserving.
- Exceptions are modeled by `Except Exn` results; `Exn` is the message
  string.  A generator that may raise after yielding some items is a
  `StreamOutcome`: the list of yielded items plus an optional terminal
  exception.
- The render callback never influences control flow (the spec requires
  sinks not to raise), so it is modeled as an event log: each orchestrator
  returns the ordered list of `(phase, data)` notifications it issued.
- Network calls (`query_endpoint`, the workspace-client lookups) are
  oracles passed in as function arguments; every non-streaming fallback
  call an orchestrator issues is also recorded in a `FallbackCall` log so
  that theorems can speak about how many calls were made and with which
  arguments.
- `str.join` is modeled by `joinStrings`, Python's insertion-ordered
  `dict` by an insertion-ordered association list.
-/

/-- Exceptions are identified by their message string. -/
abbrev Exn := String

/-- `function` member of a tool call: `{name, arguments}`. -/
structure ToolFunction where
  name : String
  arguments : String
deriving DecidableEq

/-- A tool call `{id, type, function}`.  `id = ""` models a missing/None id;
`function = none` models a missing/falsy function member. -/
structure ToolCall where
  id : String
  type : String
  function : Option ToolFunction
deriving DecidableEq

/-- A normalized chat message dict.  The same shape serves as the
`ChatAgentMessage` delta carried by a `ChatAgentChunk` (mlflow uses one
class for both), and as the plain message dicts built by the adapters. -/
structure Msg where
  role : String
  content : String := ""
  tool_calls : List ToolCall := []
  tool_call_id : String := ""
  id : String := ""
deriving DecidableEq

/-- `messages.AssistantResponse`: the value `query_and_process` returns.
`request_id = ""` / `user_token = ""` model the constructor's `None`
defaults. -/
structure AssistantResponse where
  messages : List Msg
  request_id : String := ""
  user_token : String := ""
deriving DecidableEq

/-- Behavior of a streaming call: the chunks the generator yields, and
`err = some e` when it raises `e` after yielding them. -/
structure StreamOutcome (χ : Type) where
  chunks : List χ
  err : Option Exn

/-- One recorded invocation of the non-streaming `query_endpoint`
fallback, with the arguments it received.  `user_token = ""` records that
the call site did not pass a token (Python default `None`). -/
structure FallbackCall where
  endpoint : String
  messages : List Msg
  return_traces : Bool
  user_token : String
deriving DecidableEq

/-- Behavior of the non-streaming `query_endpoint` oracle:
`(endpoint, messages, return_traces, user_token) ↦ (messages, request_id)`
or a raised exception. -/
abbrev QueryEndpointFn := String → List Msg → Bool → String → Except Exn (List Msg × String)

/-- One notification issued to the render callback: the phase plus the
phase-specific payload used by each task type. -/
inductive REvent where
  | start
  | chunkText (content : String)
  | chunkAgent (message_id : String) (message : Msg) (all_messages : List Msg)
  | chunkMsgs (msgs : List Msg)
  | error (e : Exn)
  | complete (msgs : List Msg)
deriving DecidableEq

/-- `"".join` over a list of strings, in order. -/
def joinStrings : List String → String
  | [] => ""
  | s :: rest => s ++ joinStrings rest

/-- One `{type, text}` content part inside a responses-agent `message`
item. -/
structure ContentPart where
  type : String
  text : String
deriving DecidableEq

/-- An item on the responses-agent wire, either inbound (built by
`_convert_to_responses_format`) or outbound (an `output` item of a
response).  `userInput` is the plain `{role: "user", content}` dict the
request builder emits; it has no `type` key. -/
inductive RespItem where
  | message (id : String) (role : String) (content : List ContentPart)
  | function_call (id : String) (call_id : String) (name : String) (arguments : String)
  | function_call_output (call_id : String) (output : String)
  | userInput (content : String)
deriving DecidableEq

/-- `tool_call["function"]["name"]` with the source's fallback to `""`
when the function member is falsy. -/
def fnameOf (tc : ToolCall) : String :=
  match tc.function with
  | some f => f.name
  | none => ""

/-- `tool_call["function"]["arguments"]` with the source's fallback to
`""` when the function member is falsy. -/
def fargsOf (tc : ToolCall) : String :=
  match tc.function with
  | some f => f.arguments
  | none => ""

namespace ChatService

/-- Lookup in the insertion-ordered tool-call map (`call_id in
tool_call_map` / `tool_call_map[call_id]`). -/
def tcLookup : List (String × ToolCall) → String → Option ToolCall
  | [], _ => none
  | (k, v) :: rest, cid => if k = cid then some v else tcLookup rest cid

/-- In-place update of an existing map entry (`reduce_chat_agent_chunks`,
accumulate branch): append `fargs` to the stored arguments and overwrite
the stored name only when `fname` is non-empty.  Position of the entry
and all other entries are untouched. -/
def tcUpdate : List (String × ToolCall) → String → String → String → List (String × ToolCall)
  | [], _, _, _ => []
  | (k, v) :: rest, cid, fname, fargs =>
    if k = cid then
      let old := match v.function with
        | some f => f
        | none => { name := "", arguments := "" }
      (k, { v with function := some { name := if fname = "" then old.name else fname,
                                      arguments := old.arguments ++ fargs } }) :: rest
    else (k, v) :: tcUpdate rest cid fname fargs

/-- Processing of one tool-call fragment inside the delta loop of
`reduce_chat_agent_chunks`: skip falsy ids; first sighting inserts a new
entry `{id, type, function: {name, arguments}}` at the end of the map;
later sightings accumulate via `tcUpdate`. -/
def tcStepCall (m : List (String × ToolCall)) (tc : ToolCall) : List (String × ToolCall) :=
  if tc.id = "" then m
  else
    match tcLookup m tc.id with
    | none => m ++ [(tc.id, { id := tc.id, type := tc.type,
                              function := some { name := fnameOf tc, arguments := fargsOf tc } })]
    | some _ => tcUpdate m tc.id (fnameOf tc) (fargsOf tc)

/-- Tool-call processing of one delta (`if delta.tool_calls: for tool_call
in delta.tool_calls: ...`; folding over the possibly-empty list subsumes
the truthiness guard). -/
def tcDeltaStep (m : List (String × ToolCall)) (d : Msg) : List (String × ToolCall) :=
  d.tool_calls.foldl tcStepCall m

/-- The accumulated `tool_call_map` after the delta loop of
`reduce_chat_agent_chunks`. -/
def tcMapOf (deltas : List Msg) : List (String × ToolCall) :=
  deltas.foldl tcDeltaStep []

/-- The `msg_contents` list gathered by the delta loop: each delta's
content when truthy, in arrival order. -/
def msgContents (deltas : List Msg) : List String :=
  deltas.filterMap (fun d => if d.content = "" then none else some d.content)

/-- The final `tool_call_id` of the reduced message: last truthy value
seen in the loop, starting from the first delta's own field. -/
def lastToolCallId (deltas : List Msg) (init : String) : String :=
  deltas.foldl (fun acc d => if d.tool_call_id = "" then acc else d.tool_call_id) init

/-- `chat_service.reduce_chat_agent_chunks` on the deltas
`first :: rest` (the source indexes `deltas[0]`, so the input is
non-empty by construction).  The result starts from the first delta and
is updated with the joined contents, the accumulated tool-call map when
non-empty, and the last truthy `tool_call_id`. -/
def reduce_chat_agent_chunks (first : Msg) (rest : List Msg) : Msg :=
  let deltas := first :: rest
  let m := tcMapOf deltas
  { role := first.role
    id := first.id
    content := joinStrings (msgContents deltas)
    tool_calls := if m = [] then first.tool_calls else m.map Prod.snd
    tool_call_id := lastToolCallId deltas first.tool_call_id }

/-- `delta` member of a chat-completions streamed choice
(`chunk["choices"][0].get("delta", {})`); `content = ""` models a
missing content key. -/
structure CCDelta where
  content : String := ""
deriving DecidableEq

/-- One entry of a chat-completions chunk's `choices` list. -/
structure CCChoice where
  delta : CCDelta := {}
deriving DecidableEq

/-- A raw chunk on the chat-completions streaming path.  `choices = []`
models both a missing `choices` key and an empty list (the source guards
with `if "choices" in chunk and chunk["choices"]`);
`databricks_request_id` is
`chunk.get("databricks_output", {}).get("databricks_request_id")`. -/
structure CCChunk where
  choices : List CCChoice := []
  databricks_request_id : String := ""
deriving DecidableEq

/-- Loop body of `ChatService._query_chat_completions_endpoint`: state is
`(accumulated_content, request_id, emitted events)`.  A truthy content
delta is appended and re-rendered; a truthy request id overwrites the
stored one. -/
def ccStep (acc : String × String × List REvent) (c : CCChunk) : String × String × List REvent :=
  let (content, rid, evs) := acc
  let deltaContent := match c.choices with
    | [] => ""
    | ch :: _ => ch.delta.content
  let (content, evs) :=
    if deltaContent = "" then (content, evs)
    else (content ++ deltaContent, evs ++ [REvent.chunkText (content ++ deltaContent)])
  let rid := if c.databricks_request_id = "" then rid else c.databricks_request_id
  (content, rid, evs)

/-- `ChatService._query_chat_completions_endpoint`.  Returns the emitted
render events, the log of non-streaming `query_endpoint` calls, and the
result (`Except.error` when an exception escapes to the caller).  Note
the fallback call passes no `user_token` (Python default `None`, recorded
as `""`), and the fallback `AssistantResponse` is built without a
token. -/
def query_chat_completions_endpoint (query_endpoint : QueryEndpointFn)
    (endpoint_name : String) (supports_feedback : Bool)
    (stream : StreamOutcome CCChunk) (input_messages : List Msg) (user_token : String) :
    List REvent × List FallbackCall × Except Exn AssistantResponse :=
  let st := stream.chunks.foldl ccStep ("", "", [REvent.start])
  let (content, rid, evs) := st
  match stream.err with
  | none =>
    let messages := [{ role := "assistant", content := content }]
    (evs ++ [REvent.complete messages], [],
     Except.ok { messages := messages, request_id := rid, user_token := user_token })
  | some e =>
    let call : FallbackCall := ⟨endpoint_name, input_messages, supports_feedback, ""⟩
    match query_endpoint endpoint_name input_messages supports_feedback "" with
    | Except.ok (messages, rid2) =>
      (evs ++ [REvent.error e, REvent.complete messages], [call],
       Except.ok { messages := messages, request_id := rid2 })
    | Except.error e2 =>
      (evs ++ [REvent.error e], [call], Except.error e2)

/-- A validated `ChatAgentChunk`: its `delta` (a `ChatAgentMessage`) and
the request id extracted from `raw_chunk.get("databricks_output", {})`. -/
structure CAChunk where
  delta : Msg
  databricks_request_id : String := ""
deriving DecidableEq

/-- `message_buffers[message_id].append(chunk)` on the insertion-ordered
buffer map, creating the buffer on first sight of the id.  A buffer is
kept as (first chunk delta, later chunk deltas). -/
def caAppendBuffer : List (String × Msg × List Msg) → String → Msg → List (String × Msg × List Msg)
  | [], mid, d => [(mid, d, [])]
  | (k, f, r) :: rest, mid, d =>
    if k = mid then (k, f, r ++ [d]) :: rest
    else (k, f, r) :: caAppendBuffer rest mid d

/-- `message_buffers[message_id]` lookup. -/
def caBufferOf : List (String × Msg × List Msg) → String → Option (Msg × List Msg)
  | [], _ => none
  | (k, f, r) :: rest, mid => if k = mid then some (f, r) else caBufferOf rest mid

/-- The buffer map after consuming a list of chat-agent deltas, keyed by
`delta.id` in first-appearance order. -/
def caBuffers (deltas : List Msg) : List (String × Msg × List Msg) :=
  deltas.foldl (fun bufs d => caAppendBuffer bufs d.id d) []

/-- `all_messages`: every buffer reduced, in buffer (= first-appearance)
order. -/
def caAllMessages (bufs : List (String × Msg × List Msg)) : List Msg :=
  bufs.map (fun b => reduce_chat_agent_chunks b.2.1 b.2.2)

/-- Loop body of `ChatService._query_chat_agent_endpoint`: state is
`(message_buffers, request_id, emitted events)`.  The request id is
extracted first, then the chunk is buffered under its message id, the
buffer is re-reduced, and a `chunk` event carrying
`{message_id, message, all_messages}` is emitted. -/
def caStep (acc : List (String × Msg × List Msg) × String × List REvent) (c : CAChunk) :
    List (String × Msg × List Msg) × String × List REvent :=
  let (bufs, rid, evs) := acc
  let rid := if c.databricks_request_id = "" then rid else c.databricks_request_id
  let mid := c.delta.id
  let bufs := caAppendBuffer bufs mid c.delta
  let runningMessage := match caBufferOf bufs mid with
    | some (f, r) => reduce_chat_agent_chunks f r
    | none => reduce_chat_agent_chunks c.delta []
  (bufs, rid, evs ++ [REvent.chunkAgent mid runningMessage (caAllMessages bufs)])

/-- `ChatService._query_chat_agent_endpoint`.  Same shape as the
chat-completions orchestrator; here the fallback call does pass
`user_token`. -/
def query_chat_agent_endpoint (query_endpoint : QueryEndpointFn)
    (endpoint_name : String) (supports_feedback : Bool)
    (stream : StreamOutcome CAChunk) (input_messages : List Msg) (user_token : String) :
    List REvent × List FallbackCall × Except Exn AssistantResponse :=
  let st := stream.chunks.foldl caStep ([], "", [REvent.start])
  let (bufs, rid, evs) := st
  match stream.err with
  | none =>
    let messages := caAllMessages bufs
    (evs ++ [REvent.complete messages], [],
     Except.ok { messages := messages, request_id := rid, user_token := user_token })
  | some e =>
    let call : FallbackCall := ⟨endpoint_name, input_messages, supports_feedback, user_token⟩
    match query_endpoint endpoint_name input_messages supports_feedback user_token with
    | Except.ok (messages, rid2) =>
      (evs ++ [REvent.error e, REvent.complete messages], [call],
       Except.ok { messages := messages, request_id := rid2 })
    | Except.error e2 =>
      (evs ++ [REvent.error e], [call], Except.error e2)

/-- A raw event on the responses-agent streaming path: whether the raw
dict has a `type` key, the validated event's `item` when present and
truthy, and the request id from `databricks_output`. -/
structure RAEvent where
  has_type : Bool
  item : Option RespItem := none
  databricks_request_id : String := ""
deriving DecidableEq

/-- Item dispatch of `ChatService._query_responses_endpoint`: a `message`
item appends one assistant message per non-empty `output_text` part; a
`function_call` item appends one assistant message with a single tool
call; a `function_call_output` item appends one tool message; anything
else appends nothing. -/
def raItemMessages : RespItem → List Msg
  | RespItem.message _ _ parts =>
    parts.filterMap (fun p =>
      if p.type = "output_text" then
        if p.text = "" then none else some { role := "assistant", content := p.text }
      else none)
  | RespItem.function_call _ call_id name args =>
    [{ role := "assistant", content := "",
       tool_calls := [⟨call_id, "function", some ⟨name, args⟩⟩] }]
  | RespItem.function_call_output call_id output =>
    [{ role := "tool", content := output, tool_call_id := call_id }]
  | RespItem.userInput _ => []

/-- Messages contributed by one raw event: items are only inspected when
the raw dict has a `type` key and the validated event carries a truthy
`item`. -/
def raEventMessages (ev : RAEvent) : List Msg :=
  if ev.has_type then
    match ev.item with
    | some it => raItemMessages it
    | none => []
  else []

/-- Loop body of `ChatService._query_responses_endpoint`: state is
`(all_messages, request_id, emitted events)`.  After each raw event a
`chunk` event carrying the running list is emitted when the list is
non-empty. -/
def raStep (acc : List Msg × String × List REvent) (ev : RAEvent) :
    List Msg × String × List REvent :=
  let (all, rid, evs) := acc
  let rid := if ev.databricks_request_id = "" then rid else ev.databricks_request_id
  let all := all ++ raEventMessages ev
  let evs := if all = [] then evs else evs ++ [REvent.chunkMsgs all]
  (all, rid, evs)

/-- `ChatService._query_responses_endpoint`.  The success path builds the
response without a token (`AssistantResponse(messages=..., request_id=...)`);
the fallback call passes `user_token`. -/
def query_responses_endpoint (query_endpoint : QueryEndpointFn)
    (endpoint_name : String) (supports_feedback : Bool)
    (stream : StreamOutcome RAEvent) (input_messages : List Msg) (user_token : String) :
    List REvent × List FallbackCall × Except Exn AssistantResponse :=
  let st := stream.chunks.foldl raStep ([], "", [REvent.start])
  let (all, rid, evs) := st
  match stream.err with
  | none =>
    (evs ++ [REvent.complete all], [],
     Except.ok { messages := all, request_id := rid })
  | some e =>
    let call : FallbackCall := ⟨endpoint_name, input_messages, supports_feedback, user_token⟩
    match query_endpoint endpoint_name input_messages supports_feedback user_token with
    | Except.ok (messages, rid2) =>
      (evs ++ [REvent.error e, REvent.complete messages], [call],
       Except.ok { messages := messages, request_id := rid2 })
    | Except.error e2 =>
      (evs ++ [REvent.error e], [call], Except.error e2)

/-- `ChatService.query_and_process`: dispatch on the task type.  The
stream for each protocol is passed as an oracle (in the source it is
produced by `query_endpoint_stream` for the dispatched protocol). -/
def query_and_process (query_endpoint : QueryEndpointFn)
    (endpoint_name : String) (supports_feedback : Bool) (task_type : String)
    (streamCC : StreamOutcome CCChunk) (streamCA : StreamOutcome CAChunk)
    (streamRA : StreamOutcome RAEvent)
    (input_messages : List Msg) (user_token : String) :
    List REvent × List FallbackCall × Except Exn AssistantResponse :=
  if task_type = "agent/v1/responses" then
    query_responses_endpoint query_endpoint endpoint_name supports_feedback streamRA
      input_messages user_token
  else if task_type = "agent/v2/chat" then
    query_chat_agent_endpoint query_endpoint endpoint_name supports_feedback streamCA
      input_messages user_token
  else
    query_chat_completions_endpoint query_endpoint endpoint_name supports_feedback streamCC
      input_messages user_token

/-- `m'` extends `m`: every entry of the tool-call map `m` is still
present in `m'` under the same call id, with the same id and type fields
and with its arguments string only extended by appending. -/
def TCExtends (m m' : List (String × ToolCall)) : Prop :=
  ∀ cid c, tcLookup m cid = some c →
    ∃ c', tcLookup m' cid = some c' ∧ c'.id = c.id ∧ c'.type = c.type ∧
      ∃ t, fargsOf c' = fargsOf c ++ t

end ChatService

namespace ModelServingUtils

/-- Message of the exception raised by
`_throw_unexpected_endpoint_format`. -/
def unexpected_endpoint_format : Exn :=
  "This app can only run against ChatModel, ChatAgent, or ResponsesAgent endpoints"

/-- `_get_endpoint_task_type`.  The workspace-metadata lookup is an
oracle: `Except.error` models any exception inside the `try` block;
`Except.ok t` models a successful lookup where `t = ""` stands for a
falsy `ep.task`.  The embedding is a total pure function: it can neither
raise nor perform side effects. -/
def get_endpoint_task_type (endpoint_task_lookup : Except Exn String) : String :=
  match endpoint_task_lookup with
  | Except.ok task => if task = "" then "chat/completions" else task
  | Except.error _ => "chat/completions"

/-- A raw parsed chunk on the `_query_chat_endpoint_stream` path, reduced
to the only datum the shape dispatch inspects: which top-level keys the
JSON object has. -/
structure RawChunkObj where
  keys : List String
deriving DecidableEq

/-- The user-token branch of `_query_chat_endpoint_stream` (direct
`requests` SSE loop): yield a parsed chunk when it has a `choices` or a
`delta` key, silently skip it otherwise, and keep consuming the
stream. -/
def query_chat_endpoint_stream_user : List RawChunkObj → List RawChunkObj
  | [] => []
  | c :: rest =>
    if c.keys.contains "choices" then c :: query_chat_endpoint_stream_user rest
    else if c.keys.contains "delta" then c :: query_chat_endpoint_stream_user rest
    else query_chat_endpoint_stream_user rest

/-- The service-credential branch of `_query_chat_endpoint_stream`
(MLflow `predict_stream` loop): yield recognized chunks, and raise
`_throw_unexpected_endpoint_format` at the first chunk with neither a
`choices` nor a `delta` key.  The generator result is the yielded prefix
plus the optional terminal exception. -/
def query_chat_endpoint_stream_app : List RawChunkObj → List RawChunkObj × Option Exn
  | [] => ([], none)
  | c :: rest =>
    if c.keys.contains "choices" then
      let (ys, e) := query_chat_endpoint_stream_app rest
      (c :: ys, e)
    else if c.keys.contains "delta" then
      let (ys, e) := query_chat_endpoint_stream_app rest
      (c :: ys, e)
    else ([], some unexpected_endpoint_format)

/-- `_convert_to_responses_format`: shape normalized history messages
into responses-agent items.  `fresh` stands for `str(uuid.uuid4())`, used
when an assistant message carries no id (the generated value is opaque
and never inspected downstream). -/
def convert_to_responses_format (fresh : String) (messages : List Msg) : List RespItem :=
  messages.foldl (fun acc msg =>
    if msg.role = "user" then
      acc ++ [RespItem.userInput msg.content]
    else if msg.role = "assistant" then
      if msg.tool_calls = [] then
        acc ++ [RespItem.message (if msg.id = "" then fresh else msg.id) "assistant"
                  [{ type := "output_text", text := msg.content }]]
      else
        acc ++ msg.tool_calls.map (fun tc =>
                 RespItem.function_call tc.id tc.id (fnameOf tc) (fargsOf tc))
            ++ (if msg.content = "" then []
                else [RespItem.message (if msg.id = "" then fresh else msg.id) "assistant"
                        [{ type := "output_text", text := msg.content }]])
    else if msg.role = "tool" then
      acc ++ [RespItem.function_call_output msg.tool_call_id msg.content]
    else acc) []

/-- Item dispatch of the non-streaming `_query_responses_endpoint`: a
`message` item concatenates the text of all its `output_text` parts and
contributes one assistant message when the concatenation is non-empty;
`function_call` / `function_call_output` items contribute one message
each; anything else contributes nothing. -/
def responsesItemMessages : RespItem → List Msg
  | RespItem.message _ _ parts =>
    let text := joinStrings (parts.filterMap (fun p =>
      if p.type = "output_text" then some p.text else none))
    if text = "" then [] else [{ role := "assistant", content := text }]
  | RespItem.function_call _ call_id name args =>
    [{ role := "assistant", content := "",
       tool_calls := [⟨call_id, "function", some ⟨name, args⟩⟩] }]
  | RespItem.function_call_output call_id output =>
    [{ role := "tool", content := output, tool_call_id := call_id }]
  | RespItem.userInput _ => []

/-- The `result_messages` accumulation loop of the non-streaming
`_query_responses_endpoint` over the response's `output` items. -/
def responsesOutputMessages (output : List RespItem) : List Msg :=
  output.foldl (fun acc it => acc ++ responsesItemMessages it) []

/-- Return value of the non-streaming `_query_responses_endpoint`
(message-list component): `result_messages or [{"role": "assistant",
"content": "No response found"}]`. -/
def query_responses_endpoint_messages (output : List RespItem) : List Msg :=
  let r := responsesOutputMessages output
  if r = [] then [{ role := "assistant", content := "No response found" }] else r

/-- One entry of the `text_assessments` list built by `submit_feedback`:
`{ratings: {answer_correct: {value: ...}}, free_text_comment: None}`,
flattened to its two leaves. -/
structure TextAssessment where
  answer_correct_value : String
  free_text_comment : Option String
deriving DecidableEq

/-- One record of the `dataframe_records` payload of `submit_feedback`.
The `source`, `text_assessments` and `retrieval_assessments` fields are
`json.dumps`-encoded on the wire; they are modeled structurally
(`source_id`/`source_type` are the two members of the source object). -/
structure FeedbackRecord where
  source_id : String
  source_type : String
  request_id : String
  text_assessments : List TextAssessment
  retrieval_assessments : List TextAssessment
deriving DecidableEq

/-- The `dataframe_records` list built by `submit_feedback` for a rating
in `{some 1, some 0, none}` (Python `1`, `0`, `None`). -/
def submit_feedback_payload (request_id : String) (rating : Option Int) : List FeedbackRecord :=
  let rating_string := if rating = some 1 then "positive" else "negative"
  let text_assessments : List TextAssessment :=
    match rating with
    | none => []
    | some _ => [{ answer_correct_value := rating_string, free_text_comment := none }]
  [{ source_id := "e2e-chatbot-app", source_type := "human", request_id := request_id,
     text_assessments := text_assessments, retrieval_assessments := [] }]

end ModelServingUtils

/-! Concrete inputs used by the closed evaluation theorems, witnesses and
counterexamples below. -/

/-- Message returned by the successful fallback oracle. -/
def fbMsg : Msg := { role := "assistant", content := "fallback" }

/-- A `query_endpoint` oracle that always succeeds. -/
def fbOk : QueryEndpointFn := fun _ _ _ _ => Except.ok ([fbMsg], "rid")

/-- A `query_endpoint` oracle that always raises. -/
def fbErr : QueryEndpointFn := fun _ _ _ _ => Except.error "fberr"

/-- A one-turn input history. -/
def umsg : Msg := { role := "user", content := "q" }

/-- An empty, non-raising chat-completions stream. -/
def emptyCC : StreamOutcome ChatService.CCChunk := ⟨[], none⟩

/-- An empty, non-raising chat-agent stream. -/
def emptyCA : StreamOutcome ChatService.CAChunk := ⟨[], none⟩

/-- An empty, non-raising responses-agent stream. -/
def emptyRA : StreamOutcome ChatService.RAEvent := ⟨[], none⟩

/-- A chat-completions chunk carrying the content delta `"Hi"`. -/
def ccHi : ChatService.CCChunk := { choices := [{ delta := { content := "Hi" } }] }

/-- First fragment of the C2 counterexample: it carries a tool call with
a falsy (missing) id. -/
def c2d1 : Msg := { role := "assistant", tool_calls := [⟨"", "function", some ⟨"f", "x"⟩⟩], id := "m" }

/-- Second fragment of the C2 counterexample: it carries a tool call with
a proper id. -/
def c2d2 : Msg := { role := "assistant", tool_calls := [⟨"b", "function", some ⟨"g", "y"⟩⟩], id := "m" }

/-- First fragment of the C3 example: tool call `a` with arguments piece
`{"x":1` (written with escaped braces). -/
def c3d1 : Msg := { role := "assistant", tool_calls := [⟨"a", "function", some ⟨"f", "\x7b\"x\":1"⟩⟩] }

/-- Second fragment of the C3 example: tool call `a` again, no name,
arguments piece `}`. -/
def c3d2 : Msg := { role := "assistant", tool_calls := [⟨"a", "function", some ⟨"", "\x7d"⟩⟩] }

/-- A first-sighting tool-call fragment. -/
def c3callA : ToolCall := ⟨"a", "function", some ⟨"f", "x"⟩⟩

/-- A map entry as stored after first sighting of `c3callA`. -/
def c3stored : ToolCall := { id := "a", type := "function", function := some { name := "f", arguments := "x" } }

/-- A later fragment for the same call id, with no name and more
arguments text. -/
def c3callB : ToolCall := ⟨"a", "function", some ⟨"", "y"⟩⟩

/-- Chat-agent chunks interleaved as `m1, m2, m1, m2`. -/
def caA1 : ChatService.CAChunk := ⟨{ role := "assistant", content := "A", id := "m1" }, ""⟩

/-- Second chunk: identity `m2`, content `"C"`. -/
def caC2 : ChatService.CAChunk := ⟨{ role := "assistant", content := "C", id := "m2" }, ""⟩

/-- Third chunk: identity `m1` again, content `"B"`. -/
def caB3 : ChatService.CAChunk := ⟨{ role := "assistant", content := "B", id := "m1" }, ""⟩

/-- Fourth chunk: identity `m2` again, content `"D"`. -/
def caD4 : ChatService.CAChunk := ⟨{ role := "assistant", content := "D", id := "m2" }, ""⟩

/-- Reduction of the `m1` buffer after one chunk. -/
def mA : Msg := { role := "assistant", content := "A", id := "m1" }

/-- Reduction of the `m2` buffer after one chunk. -/
def mC : Msg := { role := "assistant", content := "C", id := "m2" }

/-- Final reduction of the `m1` buffer. -/
def mAB : Msg := { role := "assistant", content := "AB", id := "m1" }

/-- Final reduction of the `m2` buffer. -/
def mCD : Msg := { role := "assistant", content := "CD", id := "m2" }

/-- The order of first appearance of each message identity, as the spec
words it: fold left, appending an id the first time it is seen. -/
def firstAppearances (ids : List String) : List String :=
  ids.foldl (fun acc i => if i ∈ acc then acc else acc ++ [i]) []

/-! Helper lemmas. -/

namespace ChatService

/-- `joinStrings` distributes over list append. -/
theorem joinStrings_append (l₁ l₂ : List String) :
    joinStrings (l₁ ++ l₂) = joinStrings l₁ ++ joinStrings l₂ := by
  induction l₁ with
  | nil => simp [joinStrings, String.empty_append]
  | cons a t ih => simp [joinStrings, ih, String.append_assoc]

/-- `msgContents` distributes over list append. -/
theorem msgContents_append (l₁ l₂ : List Msg) :
    msgContents (l₁ ++ l₂) = msgContents l₁ ++ msgContents l₂ := by
  simp [msgContents]

/-- Appending deltas only appends to the reduced content. -/
theorem reduce_content_append (first : Msg) (xs ys : List Msg) :
    (reduce_chat_agent_chunks first (xs ++ ys)).content
      = (reduce_chat_agent_chunks first xs).content ++ joinStrings (msgContents ys) := by
  show joinStrings (msgContents (first :: (xs ++ ys)))
    = joinStrings (msgContents (first :: xs)) ++ joinStrings (msgContents ys)
  rw [show first :: (xs ++ ys) = (first :: xs) ++ ys from rfl, msgContents_append,
    joinStrings_append]

/-- A present entry survives appending entries on the right. -/
theorem tcLookup_append_of_some (m l : List (String × ToolCall)) (cid : String) (c : ToolCall)
    (h : tcLookup m cid = some c) : tcLookup (m ++ l) cid = some c := by
  induction m with
  | nil => exact absurd h (by simp [tcLookup])
  | cons kv rest ih =>
    obtain ⟨k, v⟩ := kv
    by_cases hk : k = cid
    · simp [tcLookup, hk] at h ⊢
      exact h
    · simp only [List.cons_append, tcLookup, if_neg hk] at h ⊢
      exact ih h

/-- Lookup of the updated id after `tcUpdate`: arguments are appended,
the name is overwritten only when the new name is non-empty, id and type
are untouched. -/
theorem tcLookup_tcUpdate_self (m : List (String × ToolCall)) (cid fname fargs : String)
    (c : ToolCall) (h : tcLookup m cid = some c) :
    tcLookup (tcUpdate m cid fname fargs) cid
      = some { c with function := some { name := if fname = "" then fnameOf c else fname,
                                         arguments := fargsOf c ++ fargs } } := by
  induction m with
  | nil => exact absurd h (by simp [tcLookup])
  | cons kv rest ih =>
    obtain ⟨k, v⟩ := kv
    by_cases hk : k = cid
    · simp only [tcLookup, if_pos hk, Option.some.injEq] at h
      subst h
      cases hf : v.function with
      | none => simp [tcUpdate, hk, tcLookup, hf, fnameOf, fargsOf]
      | some f => simp [tcUpdate, hk, tcLookup, hf, fnameOf, fargsOf]
    · simp only [tcLookup, if_neg hk] at h
      simp only [tcUpdate, if_neg hk, tcLookup]
      exact ih h

/-- `tcUpdate` leaves every other id's entry unchanged. -/
theorem tcLookup_tcUpdate_other (m : List (String × ToolCall)) (cid fname fargs cid' : String)
    (h : cid' ≠ cid) : tcLookup (tcUpdate m cid fname fargs) cid' = tcLookup m cid' := by
  induction m with
  | nil => simp [tcUpdate]
  | cons kv rest ih =>
    obtain ⟨k, v⟩ := kv
    by_cases hk : k = cid
    · subst hk
      have hk' : ¬ (k = cid') := fun hh => h hh.symm
      simp [tcUpdate, tcLookup, hk']
    · by_cases hk' : k = cid'
      · subst hk'
        simp [tcUpdate, hk, tcLookup]
      · simp [tcUpdate, hk, tcLookup, hk', ih]

/-- `tcUpdate` preserves the key list (and hence entry order). -/
theorem tcUpdate_keys (m : List (String × ToolCall)) (cid fname fargs : String) :
    (tcUpdate m cid fname fargs).map Prod.fst = m.map Prod.fst := by
  induction m with
  | nil => rfl
  | cons kv rest ih =>
    obtain ⟨k, v⟩ := kv
    by_cases hk : k = cid <;> simp [tcUpdate, hk, ih]

/-- `tcStepCall` on a falsy id is the identity. -/
theorem tcStepCall_empty_id (m : List (String × ToolCall)) (tc : ToolCall) (h : tc.id = "") :
    tcStepCall m tc = m := by
  simp [tcStepCall, h]

/-- `tcStepCall` on a fresh id appends the new entry at the end. -/
theorem tcStepCall_new (m : List (String × ToolCall)) (tc : ToolCall) (h : tc.id ≠ "")
    (hlu : tcLookup m tc.id = none) :
    tcStepCall m tc = m ++ [(tc.id, { id := tc.id, type := tc.type,
                                      function := some { name := fnameOf tc,
                                                         arguments := fargsOf tc } })] := by
  simp [tcStepCall, h, hlu]

/-- `tcStepCall` on a known id performs the in-place accumulation. -/
theorem tcStepCall_existing (m : List (String × ToolCall)) (tc : ToolCall) (c : ToolCall)
    (h : tc.id ≠ "") (hlu : tcLookup m tc.id = some c) :
    tcStepCall m tc = tcUpdate m tc.id (fnameOf tc) (fargsOf tc) := by
  simp [tcStepCall, h, hlu]

/-- `TCExtends` is reflexive. -/
theorem tcExtends_refl (m : List (String × ToolCall)) : TCExtends m m :=
  fun _ c h => ⟨c, h, rfl, rfl, "", (String.append_empty _).symm⟩

/-- `TCExtends` is transitive. -/
theorem tcExtends_trans {m₁ m₂ m₃ : List (String × ToolCall)}
    (h₁ : TCExtends m₁ m₂) (h₂ : TCExtends m₂ m₃) : TCExtends m₁ m₃ := by
  intro cid c h
  obtain ⟨c', hl, hid, hty, t, ht⟩ := h₁ cid c h
  obtain ⟨c'', hl', hid', hty', t', ht'⟩ := h₂ cid c' hl
  exact ⟨c'', hl', hid'.trans hid, hty'.trans hty, t ++ t',
    by rw [ht', ht, String.append_assoc]⟩

/-- One tool-call fragment only extends the map. -/
theorem tcExtends_stepCall (m : List (String × ToolCall)) (tc : ToolCall) :
    TCExtends m (tcStepCall m tc) := by
  by_cases hid : tc.id = ""
  · rw [tcStepCall_empty_id m tc hid]
    exact tcExtends_refl m
  · cases hlu : tcLookup m tc.id with
    | none =>
      rw [tcStepCall_new m tc hid hlu]
      exact fun cid c h =>
        ⟨c, tcLookup_append_of_some m _ cid c h, rfl, rfl, "", (String.append_empty _).symm⟩
    | some v =>
      rw [tcStepCall_existing m tc v hid hlu]
      intro cid c h
      by_cases hc : cid = tc.id
      · subst hc
        exact ⟨{ c with function := some { name := if fnameOf tc = "" then fnameOf c else fnameOf tc,
                                           arguments := fargsOf c ++ fargsOf tc } },
          tcLookup_tcUpdate_self m tc.id (fnameOf tc) (fargsOf tc) c h, rfl, rfl, fargsOf tc, rfl⟩
      · exact ⟨c, by rw [tcLookup_tcUpdate_other m tc.id _ _ cid hc]; exact h,
          rfl, rfl, "", (String.append_empty _).symm⟩

/-- Folding any further tool-call fragments only extends the map. -/
theorem tcExtends_foldl_calls (tcs : List ToolCall) (m : List (String × ToolCall)) :
    TCExtends m (tcs.foldl tcStepCall m) := by
  induction tcs generalizing m with
  | nil => exact tcExtends_refl m
  | cons tc rest ih =>
    exact tcExtends_trans (tcExtends_stepCall m tc) (ih (tcStepCall m tc))

/-- Folding any further deltas only extends the map. -/
theorem tcExtends_foldl_deltas (ds : List Msg) (m : List (String × ToolCall)) :
    TCExtends m (ds.foldl tcDeltaStep m) := by
  induction ds generalizing m with
  | nil => exact tcExtends_refl m
  | cons d rest ih =>
    exact tcExtends_trans (tcExtends_foldl_calls d.tool_calls m) (ih (tcDeltaStep m d))

/-- The tool-call map of a longer fragment sequence extends that of any
shorter one. -/
theorem tcMapOf_append_extends (ds ds' : List Msg) :
    TCExtends (tcMapOf ds) (tcMapOf (ds ++ ds')) := by
  show TCExtends (tcMapOf ds) ((ds ++ ds').foldl tcDeltaStep [])
  rw [List.foldl_append]
  exact tcExtends_foldl_deltas ds' (tcMapOf ds)

/-- Appending a chunk to its buffer: the buffer for that id gains the
chunk (and is created on first sight). -/
theorem caBufferOf_append_self (bufs : List (String × Msg × List Msg)) (mid : String) (d : Msg) :
    caBufferOf (caAppendBuffer bufs mid d) mid
      = some (match caBufferOf bufs mid with
              | some (f, r) => (f, r ++ [d])
              | none => (d, [])) := by
  induction bufs with
  | nil => simp [caAppendBuffer, caBufferOf]
  | cons kv rest ih =>
    obtain ⟨k, f, r⟩ := kv
    by_cases hk : k = mid
    · simp [caAppendBuffer, caBufferOf, hk]
    · simp [caAppendBuffer, caBufferOf, hk, ih]

/-- Appending a chunk leaves every other id's buffer unchanged. -/
theorem caBufferOf_append_other (bufs : List (String × Msg × List Msg)) (mid : String) (d : Msg)
    (mid' : String) (h : mid' ≠ mid) :
    caBufferOf (caAppendBuffer bufs mid d) mid' = caBufferOf bufs mid' := by
  induction bufs with
  | nil =>
    have h' : ¬ (mid = mid') := fun hh => h hh.symm
    simp [caAppendBuffer, caBufferOf, h']
  | cons kv rest ih =>
    obtain ⟨k, f, r⟩ := kv
    by_cases hk : k = mid
    · subst hk
      have hk' : ¬ (k = mid') := fun hh => h hh.symm
      simp [caAppendBuffer, caBufferOf, hk']
    · by_cases hk' : k = mid'
      · subst hk'
        simp [caAppendBuffer, caBufferOf, hk]
      · simp [caAppendBuffer, caBufferOf, hk, hk', ih]

/-- Appending a chunk keeps the key order, adding the id at the end on
first sight. -/
theorem caAppendBuffer_keys (bufs : List (String × Msg × List Msg)) (mid : String) (d : Msg) :
    (caAppendBuffer bufs mid d).map Prod.fst
      = if mid ∈ bufs.map Prod.fst then bufs.map Prod.fst else bufs.map Prod.fst ++ [mid] := by
  induction bufs with
  | nil => simp [caAppendBuffer]
  | cons kv rest ih =>
    obtain ⟨k, f, r⟩ := kv
    by_cases hk : k = mid
    · simp [caAppendBuffer, hk]
    · have hk' : ¬ (mid = k) := fun hh => hk hh.symm
      by_cases hmem : mid ∈ rest.map Prod.fst
      · simp [caAppendBuffer, hk, ih, hmem, hk']
      · simp [caAppendBuffer, hk, ih, hmem, hk']

/-- The buffer fold, looked up at one id, collects exactly the deltas
carrying that id, in arrival order. -/
theorem caBuffers_fold_lookup (cs : List Msg) (bufs : List (String × Msg × List Msg))
    (mid : String) :
    caBufferOf (cs.foldl (fun b d => caAppendBuffer b d.id d) bufs) mid
      = match caBufferOf bufs mid with
        | some (f, r) => some (f, r ++ cs.filter (fun d => decide (d.id = mid)))
        | none =>
          match cs.filter (fun d => decide (d.id = mid)) with
          | [] => none
          | f :: r => some (f, r) := by
  induction cs generalizing bufs with
  | nil =>
    cases h : caBufferOf bufs mid <;> simp [h]
  | cons d cs ih =>
    rw [List.foldl_cons, ih]
    by_cases hd : d.id = mid
    · rw [show caAppendBuffer bufs d.id d = caAppendBuffer bufs mid d from by rw [hd],
        caBufferOf_append_self]
      cases h : caBufferOf bufs mid with
      | some fr =>
        obtain ⟨f, r⟩ := fr
        simp [h, hd, List.filter_cons]
      | none => simp [h, hd, List.filter_cons]
    · rw [show caAppendBuffer bufs d.id d = caAppendBuffer bufs d.id d from rfl]
      rw [caBufferOf_append_other bufs d.id d mid (fun hh => hd hh.symm)]
      cases h : caBufferOf bufs mid <;> simp [h, hd, List.filter_cons]

/-- The buffer fold's key list is the dedup-keeping-first fold of the
delta ids. -/
theorem caBuffers_keys_aux (cs : List Msg) (bufs : List (String × Msg × List Msg)) :
    (cs.foldl (fun b d => caAppendBuffer b d.id d) bufs).map Prod.fst
      = cs.foldl (fun acc d => if d.id ∈ acc then acc else acc ++ [d.id]) (bufs.map Prod.fst) := by
  induction cs generalizing bufs with
  | nil => rfl
  | cons d cs ih =>
    rw [List.foldl_cons, List.foldl_cons, ih, caAppendBuffer_keys]

end ChatService

/-! Claim theorems. -/

open ChatService ModelServingUtils

/-- Claim C2, counterexample to the claim as stated: for the fragment
sequence `[c2d1, c2d2]` (single message identity `"m"`), the tool call
with the missing id, reported in the reduction of the length-1 prefix
(carried verbatim from the first fragment because the accumulated map is
empty), is no longer present in the reduction of the length-2 prefix:
once the id-carrying call `"b"` enters the map, the reported tool-call
list is replaced by the map values.  So a tool call reported at prefix
`k` can be removed at prefix `k'`. -/
theorem c2_claim_counterexample :
    (reduce_chat_agent_chunks c2d1 ([c2d2].take 0)).tool_calls
        = [⟨"", "function", some ⟨"f", "x"⟩⟩]
  ∧ (reduce_chat_agent_chunks c2d1 ([c2d2].take 1)).tool_calls
        = [⟨"b", "function", some ⟨"g", "y"⟩⟩]
  ∧ (⟨"", "function", some ⟨"f", "x"⟩⟩ : ToolCall)
        ∉ (reduce_chat_agent_chunks c2d1 ([c2d2].take 1)).tool_calls := by
  exact ⟨by decide, by decide, by decide⟩

/-- Claim C2, amended: for every fragment sequence `first :: rest` with a
single message identity and all `k ≤ k'`, the content string of the
reduction of the prefix `first :: rest.take k` is a prefix (in the
append sense) of that of `first :: rest.take k'`; and every tool call
recorded in the accumulated tool-call map at prefix `k` — that is, every
reported call with a non-empty id — is still present at prefix `k'` with
the same id and type and with its arguments string extended only by
appending (its name may be corrected).  The amendment excludes only the
tool calls with falsy ids carried verbatim from the first fragment while
the map is empty, which `c2_claim_counterexample` shows can be
dropped. -/
theorem c2_amended (first : Msg) (rest : List Msg) (k k' : Nat) (hkk : k ≤ k') :
    (∃ t, (reduce_chat_agent_chunks first (rest.take k')).content
        = (reduce_chat_agent_chunks first (rest.take k)).content ++ t)
  ∧ TCExtends (tcMapOf (first :: rest.take k)) (tcMapOf (first :: rest.take k')) := by
  have hdecomp : rest.take k' = rest.take k ++ (rest.drop k).take (k' - k) := by
    rw [← List.take_add rest k (k' - k), Nat.add_sub_cancel' hkk]
  constructor
  · exact ⟨joinStrings (msgContents ((rest.drop k).take (k' - k))),
      by rw [hdecomp, reduce_content_append]⟩
  · rw [hdecomp,
      show first :: (rest.take k ++ (rest.drop k).take (k' - k))
        = (first :: rest.take k) ++ (rest.drop k).take (k' - k) from rfl]
    exact tcMapOf_append_extends _ _

/-- Witness for `c2_amended` at the concrete two-fragment input of the
counterexample, with `k = 0`, `k' = 1`. -/
theorem c2_amended_witness :
    (∃ t, (reduce_chat_agent_chunks c2d1 ([c2d2].take 1)).content
        = (reduce_chat_agent_chunks c2d1 ([c2d2].take 0)).content ++ t)
  ∧ TCExtends (tcMapOf (c2d1 :: [c2d2].take 0)) (tcMapOf (c2d1 :: [c2d2].take 1)) :=
  c2_amended c2d1 [c2d2] 0 1 (by decide)

/-- Claim C3: in `reduce_chat_agent_chunks`, the first fragment carrying
a given (non-empty) tool-call id appends a map entry establishing the
call's name and initial arguments at the end of the map (first-sighting
order); every later fragment with the same id appends its arguments text
to the stored arguments, overwrites the name only when it supplies a
non-empty one, keeps id and type, leaves every other entry and the key
order unchanged; and the concrete two-fragment example with id `"a"` and
argument pieces `{"x":1` then `}` reduces to the single arguments string
`{"x":1}`. -/
theorem c3_tool_call_accumulation :
    (∀ (m : List (String × ToolCall)) (tc : ToolCall),
        tc.id ≠ "" → tcLookup m tc.id = none →
        tcStepCall m tc = m ++ [(tc.id, { id := tc.id, type := tc.type,
                                          function := some { name := fnameOf tc,
                                                             arguments := fargsOf tc } })])
  ∧ (∀ (m : List (String × ToolCall)) (tc c : ToolCall),
        tc.id ≠ "" → tcLookup m tc.id = some c →
        tcLookup (tcStepCall m tc) tc.id
            = some { c with function := some { name := if fnameOf tc = "" then fnameOf c
                                                       else fnameOf tc,
                                               arguments := fargsOf c ++ fargsOf tc } }
          ∧ (∀ cid, cid ≠ tc.id → tcLookup (tcStepCall m tc) cid = tcLookup m cid)
          ∧ (tcStepCall m tc).map Prod.fst = m.map Prod.fst)
  ∧ reduce_chat_agent_chunks c3d1 [c3d2]
      = { role := "assistant", content := "",
          tool_calls := [⟨"a", "function", some ⟨"f", "\x7b\"x\":1\x7d"⟩⟩] } := by
  refine ⟨fun m tc h hlu => tcStepCall_new m tc h hlu, fun m tc c h hlu => ?_, by decide⟩
  refine ⟨?_, fun cid hcid => ?_, ?_⟩
  · rw [tcStepCall_existing m tc c h hlu]
    exact tcLookup_tcUpdate_self m tc.id (fnameOf tc) (fargsOf tc) c hlu
  · rw [tcStepCall_existing m tc c h hlu]
    exact tcLookup_tcUpdate_other m tc.id (fnameOf tc) (fargsOf tc) cid hcid
  · rw [tcStepCall_existing m tc c h hlu]
    exact tcUpdate_keys m tc.id (fnameOf tc) (fargsOf tc)

/-- Witness for `c3_tool_call_accumulation`: first sighting of call `"a"`
on the empty map, then a later sighting on the resulting map, both
hypotheses discharged by evaluation. -/
theorem c3_accumulation_witness :
    tcStepCall [] c3callA
        = [] ++ [(c3callA.id, { id := c3callA.id, type := c3callA.type,
                                function := some { name := fnameOf c3callA,
                                                   arguments := fargsOf c3callA } })]
  ∧ tcLookup (tcStepCall [("a", c3stored)] c3callB) c3callB.id
        = some { c3stored with function := some { name := if fnameOf c3callB = ""
                                                          then fnameOf c3stored
                                                          else fnameOf c3callB,
                                                  arguments := fargsOf c3stored
                                                      ++ fargsOf c3callB } } :=
  ⟨c3_tool_call_accumulation.1 [] c3callA (by decide) (by decide),
   (c3_tool_call_accumulation.2.1 [("a", c3stored)] c3callB c3stored
      (by decide) (by decide)).1⟩

/-- Claim C4: in the chat-agent orchestrator, interleaved message
identities are folded independently — the buffer looked up under an id
holds exactly the stream's fragments carrying that id, in arrival
order — the buffer order (hence the order of `all_messages` in every
`chunk` phase and of the final message list, both of which map
`reduce_chat_agent_chunks` over the buffers) is the order of first
appearance of each identity, and the concrete run interleaved as
`m1, m2, m1, m2` yields exactly the two messages `[m1, m2]`, each
containing only its own content. -/
theorem c4_interleaved_identities :
    (∀ (cs : List Msg) (mid : String),
        caBufferOf (caBuffers cs) mid
          = match cs.filter (fun d => decide (d.id = mid)) with
            | [] => none
            | f :: r => some (f, r))
  ∧ (∀ cs : List Msg, (caBuffers cs).map Prod.fst = firstAppearances (cs.map (fun d => d.id)))
  ∧ query_chat_agent_endpoint fbOk "ep" true ⟨[caA1, caC2, caB3, caD4], none⟩ [umsg] "tok"
      = ([REvent.start,
          REvent.chunkAgent "m1" mA [mA],
          REvent.chunkAgent "m2" mC [mA, mC],
          REvent.chunkAgent "m1" mAB [mAB, mC],
          REvent.chunkAgent "m2" mCD [mAB, mCD],
          REvent.complete [mAB, mCD]],
         [],
         Except.ok { messages := [mAB, mCD], request_id := "", user_token := "tok" }) := by
  refine ⟨fun cs mid => ?_, fun cs => ?_, by rfl⟩
  · have h := caBuffers_fold_lookup cs [] mid
    simpa [caBufferOf] using h
  · show (cs.foldl (fun bufs d => caAppendBuffer bufs d.id d) []).map Prod.fst = _
    rw [caBuffers_keys_aux, firstAppearances, List.foldl_map]
    rfl

/-- Claim C1, evaluated at a failing input exhibiting the code bug: on
the chat-completions path with a stream that raises after yielding one
fragment and with `user_token = "tok"`, the orchestrator does emit
`error` once, then issues exactly one `query_endpoint` call with the
identical `input_messages`, then emits `complete` once with the
fallback's messages — but the recorded call carries no credential
(`user_token = ""`, i.e. Python `None`), diverging from the claim; when
the fallback itself raises, the exception propagates with no second
call.  On the chat-agent path the same scenario does forward `"tok"` to
the fallback, showing the omission is specific to the chat-completions
branch (`chat_service.py` line 177). -/
theorem c1_fallback_credential_eval :
    query_and_process fbOk "ep" true "chat/completions" ⟨[ccHi], some "boom"⟩ emptyCA emptyRA
        [umsg] "tok"
      = ([REvent.start, REvent.chunkText "Hi", REvent.error "boom", REvent.complete [fbMsg]],
         [⟨"ep", [umsg], true, ""⟩],
         Except.ok { messages := [fbMsg], request_id := "rid" })
  ∧ ("" : String) ≠ "tok"
  ∧ query_and_process fbErr "ep" true "chat/completions" ⟨[ccHi], some "boom"⟩ emptyCA emptyRA
        [umsg] "tok"
      = ([REvent.start, REvent.chunkText "Hi", REvent.error "boom"],
         [⟨"ep", [umsg], true, ""⟩],
         Except.error "fberr")
  ∧ query_and_process fbOk "ep" true "agent/v2/chat" emptyCC ⟨[], some "boom"⟩ emptyRA
        [umsg] "tok"
      = ([REvent.start, REvent.error "boom", REvent.complete [fbMsg]],
         [⟨"ep", [umsg], true, "tok"⟩],
         Except.ok { messages := [fbMsg], request_id := "rid" }) := by
  exact ⟨rfl, by decide, rfl, rfl⟩

/-- Claim C5, counterexample to the claim as stated: the raw chunk
`{"foo": "bar"}` (neither `choices` nor `delta` key) is silently dropped
by the user-token branch — the stream continues and later recognized
chunks are still yielded, no exception is possible on that branch — while
only the service-credential branch raises the protocol violation. -/
theorem c5_claim_counterexample :
    query_chat_endpoint_stream_user [⟨["foo"]⟩, ⟨["choices"]⟩] = [⟨["choices"]⟩]
  ∧ query_chat_endpoint_stream_app [⟨["foo"]⟩] = ([], some unexpected_endpoint_format) := by
  exact ⟨rfl, rfl⟩

/-- Claim C5, amended: the classification of an unrecognized top-level
chunk shape depends on the credential mode.  In user-token mode the
stream equals the subsequence of chunks having a `choices` or `delta`
key (unrecognized chunks are silently skipped, never an error); in
service-credential mode the stream yields the longest recognized prefix
and terminates with the `_throw_unexpected_endpoint_format` exception
exactly when some chunk is unrecognized. -/
theorem c5_amended (cs : List RawChunkObj) :
    query_chat_endpoint_stream_user cs
        = cs.filter (fun c => c.keys.contains "choices" || c.keys.contains "delta")
  ∧ query_chat_endpoint_stream_app cs
        = (cs.takeWhile (fun c => c.keys.contains "choices" || c.keys.contains "delta"),
           if cs.all (fun c => c.keys.contains "choices" || c.keys.contains "delta")
           then none else some unexpected_endpoint_format) := by
  induction cs with
  | nil => exact ⟨rfl, rfl⟩
  | cons c rest ih =>
    obtain ⟨ih1, ih2⟩ := ih
    cases h1 : c.keys.contains "choices" <;> cases h2 : c.keys.contains "delta" <;>
      constructor <;>
        simp [query_chat_endpoint_stream_user, query_chat_endpoint_stream_app,
          List.filter_cons, List.takeWhile_cons, List.all_cons, h1, h2, ih1, ih2] <;>
        split <;> simp_all

/-- The responses-agent stream fold accumulates exactly the
concatenation of each event's contributed messages. -/
theorem ra_fold_messages (chunks : List ChatService.RAEvent) (a : List Msg) (b : String)
    (c : List REvent) :
    (chunks.foldl raStep (a, b, c)).1 = a ++ (chunks.map raEventMessages).flatten := by
  induction chunks generalizing a b c with
  | nil => simp
  | cons ev rest ih =>
    rw [List.foldl_cons,
      show raStep (a, b, c) ev
        = (a ++ raEventMessages ev,
           if ev.databricks_request_id = "" then b else ev.databricks_request_id,
           if a ++ raEventMessages ev = [] then c
           else c ++ [REvent.chunkMsgs (a ++ raEventMessages ev)]) from rfl,
      ih]
    simp [List.append_assoc]

/-- The per-part filterMap of a `message` item on the streaming path is
the map over the parts that are non-empty `output_text` parts. -/
theorem raItemMessages_message_parts (parts : List ContentPart) :
    parts.filterMap (fun p =>
        if p.type = "output_text" then
          if p.text = "" then none else some ({ role := "assistant", content := p.text } : Msg)
        else none)
      = (parts.filter (fun p => decide (p.type = "output_text" ∧ p.text ≠ ""))).map
          (fun p => { role := "assistant", content := p.text }) := by
  induction parts with
  | nil => rfl
  | cons p ps ih =>
    by_cases h1 : p.type = "output_text" <;> by_cases h2 : p.text = "" <;>
      simp [List.filterMap_cons, List.filter_cons, h1, h2, ih]

/-- Claim C7, counterexample to the claim as stated: on the streaming
responses-agent path (`ChatService._query_responses_endpoint`), one
`message` item with two `output_text` parts `"A"` and `"B"` is mapped to
two emitted messages — not to at most one, and the part texts are not
concatenated into a single content string. -/
theorem c7_claim_counterexample :
    raItemMessages (RespItem.message "i" "assistant"
        [⟨"output_text", "A"⟩, ⟨"output_text", "B"⟩])
      = [{ role := "assistant", content := "A" }, { role := "assistant", content := "B" }]
  ∧ (raItemMessages (RespItem.message "i" "assistant"
        [⟨"output_text", "A"⟩, ⟨"output_text", "B"⟩])).length ≠ 1
  ∧ raItemMessages (RespItem.message "i" "assistant"
        [⟨"output_text", "A"⟩, ⟨"output_text", "B"⟩])
      ≠ [{ role := "assistant", content := "AB" }] := by
  exact ⟨by decide, by decide, by decide⟩

/-- Claim C7, amended: on the streaming responses-agent path there is no
incremental accumulation across events — the final message list of a
successfully exhausted stream is the concatenation of each event's
contributed messages — and per item: a `function_call` event yields
exactly one assistant message carrying the single tool call, a
`function_call_output` event yields exactly one tool message, and a
`message` event yields one assistant message per non-empty `output_text`
part (so one such part yields one message, but several parts yield
several messages rather than a single concatenated one; the non-streaming
parser, by contrast, concatenates — see `c10_sentinel`). -/
theorem c7_amended :
    (∀ (qe : QueryEndpointFn) (en : String) (sf : Bool)
        (chunks : List ChatService.RAEvent) (ims : List Msg) (tok : String),
        ∃ rid, (query_responses_endpoint qe en sf ⟨chunks, none⟩ ims tok).2.2
          = Except.ok { messages := (chunks.map raEventMessages).flatten, request_id := rid })
  ∧ (∀ idv cid n a, raItemMessages (RespItem.function_call idv cid n a)
        = [{ role := "assistant", content := "",
             tool_calls := [⟨cid, "function", some ⟨n, a⟩⟩] }])
  ∧ (∀ cid out, raItemMessages (RespItem.function_call_output cid out)
        = [{ role := "tool", content := out, tool_call_id := cid }])
  ∧ (∀ (idv role : String) (parts : List ContentPart),
        raItemMessages (RespItem.message idv role parts)
          = (parts.filter (fun p => decide (p.type = "output_text" ∧ p.text ≠ ""))).map
              (fun p => { role := "assistant", content := p.text })) := by
  refine ⟨fun qe en sf chunks ims tok => ?_, fun idv cid n a => rfl, fun cid out => rfl,
    fun idv role parts => raItemMessages_message_parts parts⟩
  refine ⟨(chunks.foldl raStep ([], "", [REvent.start])).2.1, ?_⟩
  show Except.ok { messages := (chunks.foldl raStep ([], "", [REvent.start])).1,
                   request_id := (chunks.foldl raStep ([], "", [REvent.start])).2.1 }
    = (Except.ok { messages := (chunks.map raEventMessages).flatten,
                   request_id := (chunks.foldl raStep ([], "", [REvent.start])).2.1 }
       : Except Exn AssistantResponse)
  rw [ra_fold_messages chunks [] "" [REvent.start]]
  simp

/-- The non-streaming output loop is the concatenation of the per-item
message lists. -/
theorem responsesOutputMessages_eq_flatten (output : List RespItem) :
    responsesOutputMessages output = (output.map responsesItemMessages).flatten := by
  have haux : ∀ (l : List RespItem) (acc : List Msg),
      l.foldl (fun a it => a ++ responsesItemMessages it) acc
        = acc ++ (l.map responsesItemMessages).flatten := by
    intro l
    induction l with
    | nil => intro acc; simp
    | cons it rest ih =>
      intro acc
      rw [List.foldl_cons, ih]
      simp [List.append_assoc]
  simpa using haux output []

/-- Claim C10: the non-streaming responses-agent parser never returns an
empty message list; a `message` output item whose concatenated
`output_text` text is empty contributes no message; and when no output
item yields any message the result is exactly the sentinel
`[{"role": "assistant", "content": "No response found"}]`. -/
theorem c10_sentinel :
    (∀ output : List RespItem, query_responses_endpoint_messages output ≠ [])
  ∧ (∀ (pre post : List RespItem) (idv role : String) (parts : List ContentPart),
        joinStrings (parts.filterMap (fun p =>
            if p.type = "output_text" then some p.text else none)) = "" →
        responsesOutputMessages (pre ++ RespItem.message idv role parts :: post)
          = responsesOutputMessages (pre ++ post))
  ∧ (∀ output : List RespItem, responsesOutputMessages output = [] →
        query_responses_endpoint_messages output
          = [{ role := "assistant", content := "No response found" }]) := by
  refine ⟨fun output => ?_, fun pre post idv role parts h => ?_, fun output h => ?_⟩
  · unfold query_responses_endpoint_messages
    by_cases h : responsesOutputMessages output = [] <;> simp [h]
  · have hitem : responsesItemMessages (RespItem.message idv role parts) = [] := by
      simp only [responsesItemMessages]
      rw [if_pos h]
    rw [responsesOutputMessages_eq_flatten, responsesOutputMessages_eq_flatten]
    simp [hitem]
  · simp [query_responses_endpoint_messages, h]

/-- Witness for `c10_sentinel`: the empty output yields the sentinel, and
a `message` item with no parts contributes nothing. -/
theorem c10_sentinel_witness :
    query_responses_endpoint_messages ([] : List RespItem)
        = [{ role := "assistant", content := "No response found" }]
  ∧ responsesOutputMessages ([] ++ RespItem.message "i" "assistant" [] :: [])
        = responsesOutputMessages ([] ++ []) :=
  ⟨c10_sentinel.2.2 [] rfl, c10_sentinel.2.1 [] [] "i" "assistant" [] rfl⟩

/-- Claim C6: the responses-agent request builder maps an assistant
message with one tool call and non-empty content to exactly two outbound
items, the `function_call` item before the `message` item, and with
empty content to the `function_call` item alone; and the round trip
holds — the response parser maps a `function_call_output` item plus a
`message` item to the equivalent `{role, content, tool_call_id}` /
`{role, content}` structures, and the request builder maps those
structures back to the same two items (the message item's id being
regenerated as `fresh`, since item ids are not retained by the
parser). -/
theorem c6_responses_round_trip (fresh content mid cid out msgid text : String) (tc : ToolCall)
    (hc : content ≠ "") (ht : text ≠ "") :
    convert_to_responses_format fresh
        [{ role := "assistant", content := content, tool_calls := [tc], id := mid }]
      = [RespItem.function_call tc.id tc.id (fnameOf tc) (fargsOf tc),
         RespItem.message (if mid = "" then fresh else mid) "assistant"
           [{ type := "output_text", text := content }]]
  ∧ convert_to_responses_format fresh
        [{ role := "assistant", content := "", tool_calls := [tc], id := mid }]
      = [RespItem.function_call tc.id tc.id (fnameOf tc) (fargsOf tc)]
  ∧ responsesOutputMessages
        [RespItem.function_call_output cid out,
         RespItem.message msgid "assistant" [{ type := "output_text", text := text }]]
      = [{ role := "tool", content := out, tool_call_id := cid },
         { role := "assistant", content := text }]
  ∧ convert_to_responses_format fresh
        [{ role := "tool", content := out, tool_call_id := cid },
         { role := "assistant", content := text }]
      = [RespItem.function_call_output cid out,
         RespItem.message fresh "assistant" [{ type := "output_text", text := text }]] := by
  refine ⟨?_, ?_, ?_, ?_⟩
  · simp [convert_to_responses_format, hc]
  · simp [convert_to_responses_format]
  · simp [responsesOutputMessages, responsesItemMessages, joinStrings,
      String.append_empty, ht]
  · simp [convert_to_responses_format]

/-- Witness for `c6_responses_round_trip` at concrete strings and the
concrete tool call `c3callA`. -/
theorem c6_round_trip_witness :
    convert_to_responses_format "F"
        [{ role := "assistant", content := "hello", tool_calls := [c3callA], id := "" }]
      = [RespItem.function_call c3callA.id c3callA.id (fnameOf c3callA) (fargsOf c3callA),
         RespItem.message (if "" = "" then "F" else "") "assistant"
           [{ type := "output_text", text := "hello" }]]
  ∧ responsesOutputMessages
        [RespItem.function_call_output "c" "o",
         RespItem.message "m" "assistant" [{ type := "output_text", text := "T" }]]
      = [{ role := "tool", content := "o", tool_call_id := "c" },
         { role := "assistant", content := "T" }] :=
  ⟨(c6_responses_round_trip "F" "hello" "" "c" "o" "m" "T" c3callA (by decide) (by decide)).1,
   (c6_responses_round_trip "F" "hello" "" "c" "o" "m" "T" c3callA
      (by decide) (by decide)).2.2.1⟩

/-- Claim C8: `submit_feedback` builds exactly one outbound record with
the JSON-encoded source identity `{id: "e2e-chatbot-app", type:
"human"}`, the given request id and an empty retrieval-assessments list;
rating `1` maps to the polarity `"positive"`, every other non-`None`
rating (including `0`) to `"negative"`, and rating `None` produces an
empty text-assessments list; each assessment has the shape
`{ratings: {answer_correct: {value: polarity}}, free_text_comment:
null}`. -/
theorem c8_feedback_mapping (request_id : String) (rating : Option Int) :
    (submit_feedback_payload request_id rating).length = 1
  ∧ ∀ rec, rec ∈ submit_feedback_payload request_id rating →
      rec.source_id = "e2e-chatbot-app" ∧ rec.source_type = "human"
      ∧ rec.request_id = request_id ∧ rec.retrieval_assessments = []
      ∧ (rating = some 1 →
          rec.text_assessments
            = [{ answer_correct_value := "positive", free_text_comment := none }])
      ∧ (∀ n : Int, rating = some n → n ≠ 1 →
          rec.text_assessments
            = [{ answer_correct_value := "negative", free_text_comment := none }])
      ∧ (rating = none → rec.text_assessments = []) := by
  constructor
  · rfl
  · intro rec hrec
    simp only [submit_feedback_payload, List.mem_singleton] at hrec
    subst hrec
    refine ⟨rfl, rfl, rfl, rfl, ?_, ?_, ?_⟩
    · intro h1
      subst h1
      rfl
    · intro n hn hne
      subst hn
      simp [hne]
    · intro h0
      subst h0
      rfl

/-- Witness for `c8_feedback_mapping`: rating `1` yields one record, and
the record of a `None` rating carries an empty assessment list. -/
theorem c8_feedback_witness :
    (submit_feedback_payload "r1" (some 1)).length = 1
  ∧ ({ source_id := "e2e-chatbot-app", source_type := "human", request_id := "r1",
       text_assessments := [], retrieval_assessments := [] } : FeedbackRecord).text_assessments
      = [] :=
  ⟨(c8_feedback_mapping "r1" (some 1)).1,
   ((c8_feedback_mapping "r1" none).2 _ (by decide)).2.2.2.2.2.2 rfl⟩

/-- Claim C9: task-type resolution is a total pure function of the
metadata-lookup outcome — it cannot raise and has no side effects by
construction — returning the default `"chat/completions"` on any lookup
failure and on a falsy reported task, and the reported task itself
otherwise. -/
theorem c9_task_type_resolution :
    (∀ e : Exn, get_endpoint_task_type (Except.error e) = "chat/completions")
  ∧ get_endpoint_task_type (Except.ok "") = "chat/completions"
  ∧ (∀ t : String, t ≠ "" → get_endpoint_task_type (Except.ok t) = t) := by
  refine ⟨fun e => rfl, rfl, fun t ht => ?_⟩
  simp [get_endpoint_task_type, ht]

/-- Witness for `c9_task_type_resolution` at a concrete task string and
a concrete lookup failure. -/
theorem c9_resolution_witness :
    get_endpoint_task_type (Except.ok "agent/v2/chat") = "agent/v2/chat"
  ∧ get_endpoint_task_type (Except.error "boom") = "chat/completions" :=
  ⟨c9_task_type_resolution.2.2 "agent/v2/chat" (by decide), c9_task_type_resolution.1 "boom"⟩

